import Mathlib

/-!
Verification of the idempotent provisioning workflow in
rapt/buildlib/rapt/install_sdk.py.

The property files are modelled as lists of lines, each line a list of
characters without a trailing newline; a file on disk corresponds to the
concatenation of its lines, each followed by a newline character.  The
Python string operations used by the code (str.partition, str.strip) are
embedded as recursive functions on character lists.
-/

namespace InstallSdk

/-- A line of a property file: a character list without the newline. -/
abbrev Line := List Char

/-- Converts a string literal into a Line. -/
def s2l (s : String) : Line := s.data

/-- The whitespace predicate of Python str.strip: space, tab, newline,
carriage return, vertical tab, form feed. -/
def pySpace (c : Char) : Bool :=
  c == ' ' || c == '\t' || c == '\n' || c == '\r' || c == '\x0b' || c == '\x0c'

/-- Python str.strip: drop whitespace from both ends. -/
def strip (l : Line) : Line :=
  ((l.dropWhile pySpace).reverse.dropWhile pySpace).reverse

/-- Python l.partition of a line at the first equals sign: returns the part
before the first '=' and the part after it; when no '=' occurs the whole
line is the first component and the second is empty, matching the
(head, sep, tail) triple of str.partition with sep dropped. -/
def partitionEq : Line → Line × Line
  | [] => ([], [])
  | c :: cs =>
    if c = '=' then ([], cs)
    else
      let p := partitionEq cs
      (c :: p.1, p.2)

/-- The line written by set_property: "{key}={value}". -/
def mkLine (key value : Line) : Line := key ++ '=' :: value

/-- The value lookup loop of get_property: for each line l the code takes
k, _, v = l.partition of the line at the equals sign and returns v.strip
for the first line with k.strip equal to the key. -/
def getLines (key : Line) : List Line → Option Line
  | [] => none
  | l :: ls =>
    if strip (partitionEq l).1 = key then some (strip (partitionEq l).2)
    else getLines key ls

/-- Whether some line of the file matches the key, by the comparison
set_property and get_property both use. -/
def hasKey (key : Line) (ls : List Line) : Prop :=
  ∃ l ∈ ls, strip (partitionEq l).1 = key

instance (key : Line) (ls : List Line) : Decidable (hasKey key ls) := by
  unfold hasKey; infer_instance

/-- Removal of every line matching the key, keeping the other lines in
order: the replace branch of the read loop of set_property. -/
def removeKey (key : Line) : List Line → List Line
  | [] => []
  | l :: ls =>
    if strip (partitionEq l).1 = key then removeKey key ls
    else l :: removeKey key ls

/-- The read loop of set_property over the lines read so far: none models
the early return taken when the key is found and replace is false; some
gives the lines kept for the rewrite. -/
def processLines (key : Line) (replace : Bool) : List Line → Option (List Line)
  | [] => some []
  | l :: ls =>
    if strip (partitionEq l).1 = key then
      if replace then processLines key replace ls
      else none
    else (processLines key replace ls).map (fun t => l :: t)

/-- What the read phase of set_property yielded: ok when the whole file was
read, failed when an exception interrupted the read after the given prefix
of lines (the bare except swallows it); a missing file is failed with no
lines read. -/
inductive ReadResult where
  | ok (lines : List Line)
  | failed (lines : List Line)
deriving DecidableEq

/-- The lines the for loop of set_property actually saw. -/
def ReadResult.lines : ReadResult → List Line
  | .ok ls => ls
  | .failed ls => ls

/-- Outcome of set_property on the file: unchanged models the early return
(no write at all); written gives the full new content of the file. -/
inductive SetOutcome where
  | unchanged
  | written (content : List Line)
deriving DecidableEq

/-- set_property of install_sdk.py, acting on the result of the read phase:
the try block reads lines, dropping every line matching the key when
replace is true, returning early (no write) when the key is found and
replace is false; any read exception is swallowed by the bare except; the
write phase rewrites the kept lines and appends "{key}={value}". -/
def set_property_read (r : ReadResult) (key value : Line) (replace : Bool) :
    SetOutcome :=
  match processLines key replace r.lines with
  | none => .unchanged
  | some kept => .written (kept ++ [mkLine key value])

/-- Reading a file that is missing raises inside the try of set_property
before any line is yielded; reading an intact file yields all lines. -/
def readOf : Option (List Line) → ReadResult
  | none => .failed []
  | some ls => .ok ls

/-- set_property on the file state: a missing file reads as no lines, and
the early return leaves the file exactly as it was. -/
def set_property (fs : Option (List Line)) (key value : Line)
    (replace : Bool) : Option (List Line) :=
  match set_property_read (readOf fs) key value replace with
  | .unchanged => fs
  | .written c => some c

/-- Failure channel: fail models interface.fail aborting the run, exc
models an uncaught Python exception propagating out. -/
inductive Err where
  | fail
  | exc
deriving DecidableEq

/-- get_property of install_sdk.py: open raises when the file is missing
and get_property has no handler, so the exception propagates; otherwise
the first line whose stripped head matches the key gives its stripped
tail, and None is returned when no line matches. -/
def get_property (fs : Option (List Line)) (key : Line) :
    Except Err (Option Line) :=
  match fs with
  | none => .error .exc
  | some ls => .ok (getLines key ls)

/-! Basic lemmas about the PropertyStore embedding. -/

/-- A well-formed key: stripped and without an equals sign, as all keys the
workflow writes are. -/
def WFkey (k : Line) : Prop := strip k = k ∧ '=' ∉ k

theorem partitionEq_mkLine (k v : Line) (hk : '=' ∉ k) :
    partitionEq (mkLine k v) = (k, v) := by
  induction k with
  | nil => simp [mkLine, partitionEq]
  | cons c cs ih =>
    have hc : c ≠ '=' := fun h => hk (h ▸ List.mem_cons_self c cs)
    have hcs : '=' ∉ cs := fun h => hk (List.mem_cons_of_mem c h)
    simp only [mkLine, List.cons_append, partitionEq, if_neg hc]
    have := ih hcs
    simp [mkLine] at this
    simp [this]

theorem partitionEq_no_eq (l : Line) (h : '=' ∉ l) :
    partitionEq l = (l, []) := by
  induction l with
  | nil => simp [partitionEq]
  | cons c cs ih =>
    have hc : c ≠ '=' := fun hh => h (hh ▸ List.mem_cons_self c cs)
    have hcs : '=' ∉ cs := fun hh => h (List.mem_cons_of_mem c hh)
    simp [partitionEq, if_neg hc, ih hcs]

theorem strip_nil : strip [] = [] := rfl

theorem lineKey_mkLine (k v : Line) (hk : WFkey k) :
    strip (partitionEq (mkLine k v)).1 = k := by
  rw [partitionEq_mkLine k v hk.2]
  exact hk.1

theorem processLines_of_not_hasKey (k : Line) (r : Bool) (ls : List Line)
    (h : ¬ hasKey k ls) : processLines k r ls = some ls := by
  induction ls with
  | nil => rfl
  | cons l ls ih =>
    have h1 : strip (partitionEq l).1 ≠ k := by
      intro hh; exact h ⟨l, List.mem_cons_self l ls, hh⟩
    have h2 : ¬ hasKey k ls := by
      rintro ⟨x, hx, hxx⟩; exact h ⟨x, List.mem_cons_of_mem l hx, hxx⟩
    simp [processLines, if_neg h1, ih h2]

theorem processLines_false_of_hasKey (k : Line) (ls : List Line)
    (h : hasKey k ls) : processLines k false ls = none := by
  induction ls with
  | nil => rcases h with ⟨x, hx, _⟩; cases hx
  | cons l ls ih =>
    by_cases h1 : strip (partitionEq l).1 = k
    · simp [processLines, if_pos h1]
    · have h2 : hasKey k ls := by
        rcases h with ⟨x, hx, hxx⟩
        rcases List.mem_cons.mp hx with h3 | h3
        · exact absurd (h3 ▸ hxx) h1
        · exact ⟨x, h3, hxx⟩
      simp [processLines, if_neg h1, ih h2]

theorem processLines_true (k : Line) (ls : List Line) :
    processLines k true ls = some (removeKey k ls) := by
  induction ls with
  | nil => rfl
  | cons l ls ih =>
    by_cases h1 : strip (partitionEq l).1 = k
    · simp [processLines, removeKey, if_pos h1, ih]
    · simp [processLines, removeKey, if_neg h1, ih]

theorem removeKey_of_not_hasKey (k : Line) (ls : List Line)
    (h : ¬ hasKey k ls) : removeKey k ls = ls := by
  induction ls with
  | nil => rfl
  | cons l ls ih =>
    have h1 : strip (partitionEq l).1 ≠ k := by
      intro hh; exact h ⟨l, List.mem_cons_self l ls, hh⟩
    have h2 : ¬ hasKey k ls := by
      rintro ⟨x, hx, hxx⟩; exact h ⟨x, List.mem_cons_of_mem l hx, hxx⟩
    simp [removeKey, if_neg h1, ih h2]

theorem removeKey_append (k : Line) (as bs : List Line) :
    removeKey k (as ++ bs) = removeKey k as ++ removeKey k bs := by
  induction as with
  | nil => rfl
  | cons l ls ih =>
    by_cases h1 : strip (partitionEq l).1 = k
    · simp [removeKey, if_pos h1, ih]
    · simp [removeKey, if_neg h1, ih]

theorem not_hasKey_removeKey (k : Line) (ls : List Line) :
    ¬ hasKey k (removeKey k ls) := by
  induction ls with
  | nil => rintro ⟨x, hx, _⟩; cases hx
  | cons l ls ih =>
    by_cases h1 : strip (partitionEq l).1 = k
    · simpa [removeKey, if_pos h1] using ih
    · rintro ⟨x, hx, hxx⟩
      rcases List.mem_cons.mp (by simpa [removeKey, if_neg h1] using hx)
        with h3 | h3
      · exact h1 (h3 ▸ hxx)
      · exact ih ⟨x, h3, hxx⟩

theorem removeKey_idem (k : Line) (ls : List Line) :
    removeKey k (removeKey k ls) = removeKey k ls :=
  removeKey_of_not_hasKey k _ (not_hasKey_removeKey k ls)

theorem hasKey_removeKey_of_ne (k k2 : Line) (ls : List Line) (hne : k ≠ k2)
    (h : hasKey k ls) : hasKey k (removeKey k2 ls) := by
  induction ls with
  | nil => rcases h with ⟨x, hx, _⟩; cases hx
  | cons l ls ih =>
    rcases h with ⟨x, hx, hxx⟩
    rcases List.mem_cons.mp hx with h3 | h3
    · subst h3
      have h4 : strip (partitionEq x).1 ≠ k2 := fun hh => hne (hxx ▸ hh)
      exact ⟨x, by simp [removeKey, if_neg h4], hxx⟩
    · by_cases h5 : strip (partitionEq l).1 = k2
      · simpa [removeKey, if_pos h5] using ih ⟨x, h3, hxx⟩
      · rcases ih ⟨x, h3, hxx⟩ with ⟨y, hy, hyy⟩
        exact ⟨y, by simp [removeKey, if_neg h5, hy], hyy⟩

theorem getLines_append (k : Line) (as bs : List Line) :
    getLines k (as ++ bs) =
      match getLines k as with
      | some v => some v
      | none => getLines k bs := by
  induction as with
  | nil => simp [getLines]
  | cons l ls ih =>
    by_cases h1 : strip (partitionEq l).1 = k
    · simp [getLines, if_pos h1]
    · simp [getLines, if_neg h1, ih]

theorem getLines_of_not_hasKey (k : Line) (ls : List Line)
    (h : ¬ hasKey k ls) : getLines k ls = none := by
  induction ls with
  | nil => rfl
  | cons l ls ih =>
    have h1 : strip (partitionEq l).1 ≠ k := by
      intro hh; exact h ⟨l, List.mem_cons_self l ls, hh⟩
    have h2 : ¬ hasKey k ls := by
      rintro ⟨x, hx, hxx⟩; exact h ⟨x, List.mem_cons_of_mem l hx, hxx⟩
    simp [getLines, if_neg h1, ih h2]

theorem getLines_removeKey (k k2 : Line) (ls : List Line) (hne : k ≠ k2) :
    getLines k (removeKey k2 ls) = getLines k ls := by
  induction ls with
  | nil => rfl
  | cons l ls ih =>
    by_cases h1 : strip (partitionEq l).1 = k2
    · have h2 : strip (partitionEq l).1 ≠ k := fun hh => hne (hh ▸ h1.symm ▸ rfl)
      simp [removeKey, if_pos h1, getLines, if_neg (h1 ▸ fun hh => hne hh), ih]
      simp [getLines, if_neg h2, ih]
    · by_cases h2 : strip (partitionEq l).1 = k
      · simp [removeKey, if_neg h1, getLines, if_pos h2]
      · simp [removeKey, if_neg h1, getLines, if_neg h2, ih]

/-! Lemmas about set_property and get_property on file states. -/

theorem set_property_none (k v : Line) (r : Bool) :
    set_property none k v r = some [mkLine k v] := rfl

theorem set_property_fresh (fs : Option (List Line)) (k v : Line) (r : Bool)
    (h : ¬ hasKey k (fs.getD [])) :
    set_property fs k v r = some (fs.getD [] ++ [mkLine k v]) := by
  cases fs with
  | none => rfl
  | some ls =>
    simp only [Option.getD] at h ⊢
    simp [set_property, set_property_read, readOf, ReadResult.lines,
      processLines_of_not_hasKey k r ls h]

theorem set_property_noop (ls : List Line) (k v : Line)
    (h : hasKey k ls) : set_property (some ls) k v false = some ls := by
  simp [set_property, set_property_read, readOf, ReadResult.lines,
    processLines_false_of_hasKey k ls h]

theorem set_property_replace (ls : List Line) (k v : Line) :
    set_property (some ls) k v true = some (removeKey k ls ++ [mkLine k v]) := by
  simp [set_property, set_property_read, readOf, ReadResult.lines,
    processLines_true]

theorem set_property_isSome (fs : Option (List Line)) (k v : Line) (r : Bool) :
    ∃ ls, set_property fs k v r = some ls := by
  cases fs with
  | none => exact ⟨[mkLine k v], rfl⟩
  | some ls =>
    cases r with
    | true => exact ⟨_, set_property_replace ls k v⟩
    | false =>
      by_cases h : hasKey k ls
      · exact ⟨ls, set_property_noop ls k v h⟩
      · exact ⟨_, set_property_fresh (some ls) k v false h⟩

theorem hasKey_set_property (fs : Option (List Line)) (k v : Line) (r : Bool)
    (hk : WFkey k) (ls : List Line) (h : set_property fs k v r = some ls) :
    hasKey k ls := by
  have hmk : strip (partitionEq (mkLine k v)).1 = k := lineKey_mkLine k v hk
  cases fs with
  | none =>
    rw [set_property_none] at h
    cases h
    exact ⟨mkLine k v, List.mem_singleton_self _, hmk⟩
  | some ls0 =>
    cases r with
    | true =>
      rw [set_property_replace] at h
      cases h
      exact ⟨mkLine k v, by simp, hmk⟩
    | false =>
      by_cases h0 : hasKey k ls0
      · rw [set_property_noop ls0 k v h0] at h
        cases h
        exact h0
      · rw [set_property_fresh (some ls0) k v false h0] at h
        simp only [Option.getD] at h
        cases h
        exact ⟨mkLine k v, by simp, hmk⟩

theorem hasKey_set_property_other (fs : Option (List Line)) (k k2 v : Line)
    (r : Bool) (hne : k ≠ k2) (ls : List Line)
    (hk : hasKey k (fs.getD []))
    (h : set_property fs k2 v r = some ls) : hasKey k ls := by
  cases fs with
  | none => rcases hk with ⟨x, hx, _⟩; cases hx
  | some ls0 =>
    simp only [Option.getD] at hk
    cases r with
    | true =>
      rw [set_property_replace] at h
      cases h
      rcases hasKey_removeKey_of_ne k k2 ls0 hne hk with ⟨y, hy, hyy⟩
      exact ⟨y, List.mem_append_left _ hy, hyy⟩
    | false =>
      by_cases h0 : hasKey k2 ls0
      · rw [set_property_noop ls0 k2 v h0] at h
        cases h
        exact hk
      · rw [set_property_fresh (some ls0) k2 v false h0] at h
        simp only [Option.getD] at h
        cases h
        rcases hk with ⟨y, hy, hyy⟩
        exact ⟨y, List.mem_append_left _ hy, hyy⟩

theorem getLines_set_property_other (fs : Option (List Line)) (k k2 v : Line)
    (r : Bool) (hne : k ≠ k2) (hk2 : WFkey k2) (ls : List Line)
    (h : set_property fs k2 v r = some ls) :
    getLines k ls = getLines k (fs.getD []) := by
  have hmk : strip (partitionEq (mkLine k2 v)).1 = k2 := lineKey_mkLine k2 v hk2
  have happ : ∀ as : List Line,
      getLines k (as ++ [mkLine k2 v]) = getLines k as := by
    intro as
    rw [getLines_append]
    cases hg : getLines k as with
    | some w => simp
    | none => simp [getLines, hmk, Ne.symm hne]
  cases fs with
  | none =>
    rw [set_property_none] at h
    cases h
    simpa using happ []
  | some ls0 =>
    simp only [Option.getD]
    cases r with
    | true =>
      rw [set_property_replace] at h
      cases h
      rw [happ, getLines_removeKey k k2 ls0 hne]
    | false =>
      by_cases h0 : hasKey k2 ls0
      · rw [set_property_noop ls0 k2 v h0] at h
        cases h
        rfl
      · rw [set_property_fresh (some ls0) k2 v false h0] at h
        simp only [Option.getD] at h
        cases h
        rw [happ]

theorem get_set_property_fresh (fs : Option (List Line)) (k v : Line)
    (r : Bool) (hk : WFkey k) (hfresh : ¬ hasKey k (fs.getD [])) :
    get_property (set_property fs k v r) k = .ok (some (strip v)) := by
  rw [set_property_fresh fs k v r hfresh]
  have hmk := partitionEq_mkLine k v hk.2
  rw [get_property, getLines_append, getLines_of_not_hasKey k _ hfresh]
  simp [getLines, hmk, hk.1]

theorem get_set_property_replace (ls : List Line) (k v : Line) (hk : WFkey k) :
    get_property (set_property (some ls) k v true) k = .ok (some (strip v)) := by
  rw [set_property_replace]
  have hmk := partitionEq_mkLine k v hk.2
  rw [get_property, getLines_append,
    getLines_of_not_hasKey k _ (not_hasKey_removeKey k ls)]
  simp [getLines, hmk, hk.1]

theorem set_property_replace_idem (ls : List Line) (k v : Line)
    (hk : WFkey k) :
    set_property (some (removeKey k ls ++ [mkLine k v])) k v true
      = some (removeKey k ls ++ [mkLine k v]) := by
  rw [set_property_replace, removeKey_append, removeKey_idem]
  have hmk : strip (partitionEq (mkLine k v)).1 = k := lineKey_mkLine k v hk
  simp [removeKey, hmk]

/-! Claims about the PropertyStore (C2, C3, C9, C10). -/

/-- C2 counterexample: the claim quantifies over every property file and
every key, but when the key is already present with a different value,
set with replace false is a no-op, so the subsequent get returns the old
value, not the one just set; and a key that is not stripped is never found
again by get after set writes it. -/
theorem C2_counterexample :
    get_property (set_property (some [s2l "a=0"]) (s2l "a") (s2l "1") false)
        (s2l "a") = .ok (some (s2l "0"))
  ∧ s2l "0" ≠ s2l "1"
  ∧ get_property (set_property none (s2l "a ") (s2l "1") false) (s2l "a ")
      = .ok none := by
  refine ⟨?_, by decide, ?_⟩ <;> rfl

/-- C2 (amended): for every property file in which the key does not yet
occur, and every stripped key without an equals sign and stripped
newline-free values: set then get returns the value; a second set with
replace false is a no-op on the file; a set with replace true removes the
old line and appends the key with the new value at the end, preserving
every other line verbatim and in order, after which get returns the new
value. -/
theorem C2_roundtrip (fs : Option (List Line)) (k v v2 : Line)
    (hk : WFkey k) (hkn : '\n' ∉ k)
    (hv : strip v = v) (hvn : '\n' ∉ v)
    (hv2 : strip v2 = v2) (hv2n : '\n' ∉ v2)
    (hfresh : ¬ hasKey k (fs.getD [])) :
    get_property (set_property fs k v false) k = .ok (some v)
  ∧ set_property (set_property fs k v false) k v2 false
      = set_property fs k v false
  ∧ set_property (set_property fs k v false) k v2 true
      = some (fs.getD [] ++ [mkLine k v2])
  ∧ get_property (set_property (set_property fs k v false) k v2 true) k
      = .ok (some v2) := by
  have h1 : set_property fs k v false = some (fs.getD [] ++ [mkLine k v]) :=
    set_property_fresh fs k v false hfresh
  have hmk : strip (partitionEq (mkLine k v)).1 = k := lineKey_mkLine k v hk
  have hhas : hasKey k (fs.getD [] ++ [mkLine k v]) :=
    ⟨mkLine k v, by simp, hmk⟩
  refine ⟨?_, ?_, ?_, ?_⟩
  · rw [get_set_property_fresh fs k v false hk hfresh, hv]
  · rw [h1]
    exact set_property_noop _ k v2 hhas
  · rw [h1, set_property_replace, removeKey_append,
      removeKey_of_not_hasKey k _ hfresh]
    simp [removeKey, hmk]
  · rw [h1]
    have := get_set_property_replace (fs.getD [] ++ [mkLine k v]) k v2 hk
    rwa [hv2] at this

theorem C2_roundtrip_witness :
    get_property (set_property (some [s2l "b=2"]) (s2l "a") (s2l "1") false)
        (s2l "a") = .ok (some (s2l "1"))
  ∧ set_property (set_property (some [s2l "b=2"]) (s2l "a") (s2l "1") false)
      (s2l "a") (s2l "2") false
      = set_property (some [s2l "b=2"]) (s2l "a") (s2l "1") false
  ∧ set_property (set_property (some [s2l "b=2"]) (s2l "a") (s2l "1") false)
      (s2l "a") (s2l "2") true
      = some ((some [s2l "b=2"]).getD [] ++ [mkLine (s2l "a") (s2l "2")])
  ∧ get_property (set_property
      (set_property (some [s2l "b=2"]) (s2l "a") (s2l "1") false)
      (s2l "a") (s2l "2") true) (s2l "a") = .ok (some (s2l "2")) :=
  C2_roundtrip (some [s2l "b=2"]) (s2l "a") (s2l "1") (s2l "2")
    ⟨by decide, by decide⟩ (by decide) (by decide) (by decide)
    (by decide) (by decide) (by decide)

/-- C3 counterexample: get_property on a missing file does not return
absent; the open call raises and the exception propagates, since
get_property has no handler. -/
theorem C3_counterexample :
    get_property none (s2l "key.store") = .error .exc := rfl

/-- C3 (amended): on a missing file get_property raises (the open error
propagates); absent is returned only when the file exists and no line
matches the key. -/
theorem C3_missing_file (key : Line) (ls : List Line)
    (h : ¬ hasKey key ls) :
    get_property none key = .error .exc
  ∧ get_property (some ls) key = .ok none :=
  ⟨rfl, by rw [get_property, getLines_of_not_hasKey key ls h]⟩

theorem C3_missing_file_witness :
    get_property none (s2l "a") = .error .exc
  ∧ get_property (some [s2l "b=2"]) (s2l "a") = .ok none :=
  C3_missing_file (s2l "a") [s2l "b=2"] (by decide)

/-- C9: when reading the property file raises after some prefix of lines
was read, the bare except swallows the error and the file is rewritten as
just that prefix plus the new key line, silently dropping everything the
read never reached; with an empty prefix the file is truncated to a
single line. -/
theorem C9_truncation (full : List Line) (n : Nat) (k v : Line) (r : Bool)
    (h : ¬ hasKey k (full.take n)) :
    set_property_read (.failed (full.take n)) k v r
      = .written (full.take n ++ [mkLine k v]) := by
  simp only [set_property_read, ReadResult.lines,
    processLines_of_not_hasKey k r _ h]

theorem C9_truncation_witness :
    set_property_read (.failed ([s2l "secret=1", s2l "b=2"].take 0))
        (s2l "sdk.dir") (s2l "x") false
      = .written ([s2l "secret=1", s2l "b=2"].take 0
          ++ [mkLine (s2l "sdk.dir") (s2l "x")]) :=
  C9_truncation [s2l "secret=1", s2l "b=2"] 0 (s2l "sdk.dir") (s2l "x")
    false (by decide)

/-- C10: a line without an equals sign is treated as a key with empty
value: get_property returns the empty string rather than absent,
set_property with replace false treats the key as present and is a no-op,
and replace true removes the bare line. -/
theorem C10_bare_line (l v : Line) (h1 : '=' ∉ l) (h2 : strip l = l) :
    get_property (some [l]) l = .ok (some [])
  ∧ set_property (some [l]) l v false = some [l]
  ∧ set_property (some [l]) l v true = some [mkLine l v] := by
  have hp := partitionEq_no_eq l h1
  have hmatch : strip (partitionEq l).1 = l := by rw [hp]; exact h2
  refine ⟨?_, ?_, ?_⟩
  · simp [get_property, getLines, hmatch, hp, strip_nil, h2]
  · exact set_property_noop [l] l v ⟨l, List.mem_singleton_self _, hmatch⟩
  · rw [set_property_replace]
    simp [removeKey, hmatch]

theorem C10_bare_line_witness :
    get_property (some [s2l "k"]) (s2l "k") = .ok (some [])
  ∧ set_property (some [s2l "k"]) (s2l "k") (s2l "v") false
      = some [s2l "k"]
  ∧ set_property (some [s2l "k"]) (s2l "k") (s2l "v") true
      = some [mkLine (s2l "k") (s2l "v")] :=
  C10_bare_line (s2l "k") (s2l "v") (by decide) (by decide)

/-! The run and run_slow wrappers (install_sdk.py lines 17-39).
interface.call raises subprocess.CalledProcessError when the process runs
and exits non-zero, and OSError when the executable is not found; both
wrappers catch exactly this pair and return False, returning True
otherwise. -/

/-- Outcome of interface.call on an external process. -/
inductive CallResult where
  | success
  | calledProcessError
  | osError
deriving DecidableEq

/-- run of install_sdk.py: call the process, True on return, False when
the caught pair of exceptions is raised. -/
def run (c : CallResult) : Bool :=
  match c with
  | .success => true
  | .calledProcessError => false
  | .osError => false

/-- run_slow of install_sdk.py: same wrapper with cancel=True passed to
the call; the exception handling is identical. -/
def run_slow (c : CallResult) : Bool :=
  match c with
  | .calledProcessError => false
  | .osError => false
  | .success => true

/-- C7: through run and run_slow, a process that ran and exited non-zero
and an executable that was not found produce the same result, False, at
the call site, while a successful invocation produces True; the two
failure causes are indistinguishable to callers. -/
theorem C7_collapse :
    run .calledProcessError = false
  ∧ run .osError = false
  ∧ run .success = true
  ∧ run_slow .calledProcessError = false
  ∧ run_slow .osError = false
  ∧ run_slow .success = true
  ∧ run .calledProcessError = run .osError
  ∧ run_slow .calledProcessError = run_slow .osError := by
  refine ⟨rfl, rfl, rfl, rfl, rfl, rfl, rfl, rfl⟩

/-! The directory normalization inside unpack_sdk.extract
(install_sdk.py lines 105-123).  The three paths the rename sequence
touches are tracked; the content type is abstract, with the extracted
cmdline-tools subtree as one value and the content of a freshly created
empty directory as another. -/

/-- The three Sdk subpaths the rename sequence touches; each field holds
the directory content at that path, none when the path does not exist. -/
structure ExtractDirs (α : Type) where
  cmdlineTools : Option α
  latest : Option α
  cmdlineToolsLatest : Option α
deriving DecidableEq

/-- State after zf.extractall: the archive unpacks to Sdk/cmdline-tools. -/
def afterExtractall {α : Type} (x : α) : ExtractDirs α :=
  ⟨some x, none, none⟩

/-- os.rename of Sdk/cmdline-tools to Sdk/latest: the subtree moves. -/
def renameToolsToLatest {α : Type} (s : ExtractDirs α) : ExtractDirs α :=
  ⟨none, s.cmdlineTools, none⟩

/-- os.mkdir of Sdk/cmdline-tools: a fresh empty directory. -/
def mkdirCmdlineTools {α : Type} (e : α) (s : ExtractDirs α) :
    ExtractDirs α :=
  ⟨some e, s.latest, s.cmdlineToolsLatest⟩

/-- os.rename of Sdk/latest to Sdk/cmdline-tools/latest. -/
def renameLatestUnderTools {α : Type} (s : ExtractDirs α) : ExtractDirs α :=
  ⟨s.cmdlineTools, none, s.latest⟩

/-- The extract closure of unpack_sdk: extractall, then the three-step
reorganization without which sdkmanager refuses to run. -/
def extract {α : Type} (e x : α) : ExtractDirs α :=
  renameLatestUnderTools (mkdirCmdlineTools e (renameToolsToLatest
    (afterExtractall x)))

/-- C6: after extraction, the directory originally unpacked as
cmdline-tools has been relocated so its contents live at
cmdline-tools/latest (rename the extracted directory to latest, create a
fresh cmdline-tools, move the renamed directory under it as latest), so
the package manager path cmdline-tools/latest/... holds exactly the
original tool directory contents and no stray latest directory remains. -/
theorem C6_normalization {α : Type} (e x : α) :
    (extract e x).cmdlineToolsLatest = some x
  ∧ (extract e x).latest = none
  ∧ (extract e x).cmdlineTools = some e
  ∧ extract e x
      = renameLatestUnderTools (mkdirCmdlineTools e (renameToolsToLatest
          (afterExtractall x))) :=
  ⟨rfl, rfl, rfl, rfl⟩

/-! The provisioning workflow.  The interface and plat collaborators are
external per the spec: plat resolves fixed path strings, and the
interface prompts, downloads and invokes processes.  Their observable
behaviours are parameters of the run (Env), the on-disk state the code
inspects is FS, and the externally visible invocations the claims count
are accumulated in Trace. -/

/-- The property keys and values the workflow writes. -/
def kAlias : Line := s2l "key.alias"

def kStorePass : Line := s2l "key.store.password"

def kAliasPass : Line := s2l "key.alias.password"

def kStore : Line := s2l "key.store"

def kSdkDir : Line := s2l "sdk.dir"

def vAndroid : Line := s2l "android"

/-- plat.path of android.keystore with backslashes replaced, a fixed
platform string. -/
def defaultKeystore : Line := s2l "android.keystore"

/-- plat.path of bundle.keystore with backslashes replaced. -/
def bundleKeystorePath : Line := s2l "bundle.keystore"

/-- plat.sdk with backslashes replaced. -/
def sdkDirValue : Line := s2l "Sdk"

/-- The on-disk state install_sdk.py inspects and mutates: the two
property files, existence of the two keystores, of the sdkmanager
executable, and of the two wanted package directories. -/
structure FS where
  localProps : Option (List Line)
  bundleProps : Option (List Line)
  androidKeystore : Bool
  bundleKeystore : Bool
  sdkmanager : Bool
  platformTools : Bool
  platforms30 : Bool
deriving DecidableEq

/-- Counts of the externally visible invocations the claims are about. -/
structure Trace where
  downloads : Nat
  keytoolCalls : Nat
  termsPrompts : Nat
  extracts : Nat
deriving DecidableEq

/-- Behaviour of the external collaborators during one run: the answers
the interactive prompts would return, the RAPT_NO_TERMS environment
opt-out, and whether each external process invocation succeeds (run
returning True) or fails (run returning False). -/
structure Env where
  javacOk : Bool
  javaOk : Bool
  raptNoTerms : Bool
  termsAccepted : Bool
  downloadOk : Bool
  sdkUpdateOk : Bool
  sdkLicensesOk : Bool
  sdkInstallOk : Bool
  yesnoCreateKey : Bool
  yesnoBackup : Bool
  keytoolOk : Bool
deriving DecidableEq

/-- check_java: compiles the test file with javac, then runs the JDK 8
check; either run_slow returning False is fatal (interface.fail). -/
def check_java (env : Env) : Except Err Unit :=
  if env.javacOk then
    if env.javaOk then .ok ()
    else .error .fail
  else .error .fail

/-- unpack_sdk: returns at once when the sdkmanager executable already
exists; otherwise prompts for the terms unless RAPT_NO_TERMS is set (the
terms prompt aborts without consent), downloads the platform archive and
extracts it in the background, after which the sdkmanager executable
exists. -/
def unpack_sdk (env : Env) (fs : FS) (tr : Trace) :
    Except Err (FS × Trace) :=
  if fs.sdkmanager then .ok (fs, tr)
  else
    match
      (if env.raptNoTerms then .ok tr
       else
         if env.termsAccepted then
           .ok { tr with termsPrompts := tr.termsPrompts + 1 }
         else .error .fail : Except Err Trace) with
    | .error e => .error e
    | .ok tr1 =>
      let tr2 := { tr1 with downloads := tr1.downloads + 1 }
      if env.downloadOk then
        .ok ({ fs with sdkmanager := true },
          { tr2 with extracts := tr2.extracts + 1 })
      else .error .fail

/-- get_packages: collects the wanted packages whose directory is missing
under the SDK root, and if any are missing runs sdkmanager update,
licenses, and install; each of the three failing is fatal, and a
successful install leaves the package directories present. -/
def get_packages (env : Env) (fs : FS) (tr : Trace) :
    Except Err (FS × Trace) :=
  if fs.platformTools && fs.platforms30 then .ok (fs, tr)
  else
    if env.sdkUpdateOk then
      if env.sdkLicensesOk then
        if env.sdkInstallOk then
          .ok ({ fs with platformTools := true, platforms30 := true }, tr)
        else .error .fail
      else .error .fail
    else .error .fail

/-- The four successive set_property calls at the top of generate_keys
and generate_bundle_keys: alias, store password, alias password, then
the keystore path, all with the first-write-wins default. -/
def seedProps (fs : Option (List Line)) (path : Line) : Option (List Line) :=
  set_property
    (set_property
      (set_property (set_property fs kAlias vAndroid false)
        kStorePass vAndroid false)
      kAliasPass vAndroid false)
    kStore path false

/-- generate_keys: seeds the four default properties into
local.properties with first-write-wins semantics, then stops early when
the stored keystore path was customized or the keystore file already
exists; otherwise asks the two confirmations, and only when both are
accepted invokes keytool, whose failure is fatal and whose success
creates android.keystore. -/
def generate_keys (env : Env) (fs : FS) (tr : Trace) :
    Except Err (FS × Trace) :=
  let p4 := seedProps fs.localProps defaultKeystore
  let fs1 := { fs with localProps := p4 }
  match get_property p4 kStore with
  | .error _ => .error .exc
  | .ok got =>
    if got = some defaultKeystore then
      if fs.androidKeystore then .ok (fs1, tr)
      else
        if env.yesnoCreateKey then
          if env.yesnoBackup then
            let tr1 := { tr with keytoolCalls := tr.keytoolCalls + 1 }
            if env.keytoolOk then
              .ok ({ fs1 with androidKeystore := true }, tr1)
            else .error .fail
          else .ok (fs1, tr)
        else .ok (fs1, tr)
    else .ok (fs1, tr)

/-- generate_bundle_keys: the silent variant on bundle.properties and
bundle.keystore, with no confirmations: when the stored path is the
default and the keystore is absent, keytool always runs. -/
def generate_bundle_keys (env : Env) (fs : FS) (tr : Trace) :
    Except Err (FS × Trace) :=
  let p4 := seedProps fs.bundleProps bundleKeystorePath
  let fs1 := { fs with bundleProps := p4 }
  match get_property p4 kStore with
  | .error _ => .error .exc
  | .ok got =>
    if got = some bundleKeystorePath then
      if fs.bundleKeystore then .ok (fs1, tr)
      else
        let tr1 := { tr with keytoolCalls := tr.keytoolCalls + 1 }
        if env.keytoolOk then
          .ok ({ fs1 with bundleKeystore := true }, tr1)
        else .error .fail
    else .ok (fs1, tr)

/-- install_sdk: the orchestrator.  rapt.build.copy_project is not under
src.  Modelled from the spec: it prepares the project skeleton and does
not touch the property files, keystores, SDK or package state tracked
here, so it is the identity on FS.  Then check_java, unpack_sdk,
get_packages, generate_keys, generate_bundle_keys, and finally sdk.dir is
persisted into both property files with replace=True. -/
def install_sdk (env : Env) (fs : FS) (tr : Trace) :
    Except Err (FS × Trace) :=
  match check_java env with
  | .error e => .error e
  | .ok _ =>
    match unpack_sdk env fs tr with
    | .error e => .error e
    | .ok (fs1, tr1) =>
      match get_packages env fs1 tr1 with
      | .error e => .error e
      | .ok (fs2, tr2) =>
        match generate_keys env fs2 tr2 with
        | .error e => .error e
        | .ok (fs3, tr3) =>
          match generate_bundle_keys env fs3 tr3 with
          | .error e => .error e
          | .ok (fs4, tr4) =>
            .ok ({ fs4 with
              localProps := set_property fs4.localProps kSdkDir
                sdkDirValue true,
              bundleProps := set_property fs4.bundleProps kSdkDir
                sdkDirValue true }, tr4)

/-- A fresh project state: no property files, no keystores, no SDK. -/
def freshFS : FS :=
  ⟨none, none, false, false, false, false, false⟩

/-- The four default lines generate_keys seeds into a fresh
local.properties, in write order. -/
def seededLocal : List Line :=
  [mkLine kAlias vAndroid, mkLine kStorePass vAndroid,
   mkLine kAliasPass vAndroid, mkLine kStore defaultKeystore]

/-- The four default lines generate_bundle_keys seeds into a fresh
bundle.properties. -/
def seededBundle : List Line :=
  [mkLine kAlias vAndroid, mkLine kStorePass vAndroid,
   mkLine kAliasPass vAndroid, mkLine kStore bundleKeystorePath]

/-! Lemmas about the workflow components. -/

theorem FS_update_props_self (fs : FS) (lp bp : Option (List Line))
    (h1 : fs.localProps = lp) (h2 : fs.bundleProps = bp) :
    ({ fs with localProps := lp, bundleProps := bp } : FS) = fs := by
  cases fs; cases h1; cases h2; rfl

theorem FS_update_localProps_self (fs : FS) (lp : Option (List Line))
    (h : fs.localProps = lp) :
    ({ fs with localProps := lp } : FS) = fs := by
  cases fs; cases h; rfl

theorem FS_update_bundleProps_self (fs : FS) (bp : Option (List Line))
    (h : fs.bundleProps = bp) :
    ({ fs with bundleProps := bp } : FS) = fs := by
  cases fs; cases h; rfl

theorem WF_kAlias : WFkey kAlias := ⟨by decide, by decide⟩

theorem WF_kStorePass : WFkey kStorePass := ⟨by decide, by decide⟩

theorem WF_kAliasPass : WFkey kAliasPass := ⟨by decide, by decide⟩

theorem WF_kStore : WFkey kStore := ⟨by decide, by decide⟩

theorem WF_kSdkDir : WFkey kSdkDir := ⟨by decide, by decide⟩

theorem check_java_ok (env : Env) (h1 : env.javacOk = true)
    (h2 : env.javaOk = true) : check_java env = .ok () := by
  simp [check_java, h1, h2]

theorem check_java_inv (env : Env) (u : Unit)
    (h : check_java env = .ok u) :
    env.javacOk = true ∧ env.javaOk = true := by
  by_cases h1 : env.javacOk
  · by_cases h2 : env.javaOk
    · exact ⟨h1, h2⟩
    · simp [check_java, h1, h2] at h
  · simp [check_java, h1] at h

theorem unpack_sdk_skip (env : Env) (fs : FS) (tr : Trace)
    (h : fs.sdkmanager = true) : unpack_sdk env fs tr = .ok (fs, tr) := by
  simp [unpack_sdk, h]

theorem unpack_sdk_inv (env : Env) (fs : FS) (tr : Trace) (fs1 : FS)
    (tr1 : Trace) (h : unpack_sdk env fs tr = .ok (fs1, tr1)) :
    fs1 = { fs with sdkmanager := true } := by
  by_cases hs : fs.sdkmanager
  · rw [unpack_sdk_skip env fs tr hs] at h
    obtain ⟨h1, _⟩ := Prod.mk.injEq .. ▸ Except.ok.inj h
    cases fs
    simp only at hs
    subst hs
    exact h1.symm
  · simp only [unpack_sdk, if_neg hs] at h
    by_cases hnt : env.raptNoTerms
    · simp only [if_pos hnt] at h
      by_cases hdl : env.downloadOk
      · simp only [if_pos hdl] at h
        obtain ⟨h1, _⟩ := Prod.mk.injEq .. ▸ Except.ok.inj h
        exact h1.symm
      · simp [if_neg hdl] at h
    · simp only [if_neg hnt] at h
      by_cases hta : env.termsAccepted
      · simp only [if_pos hta] at h
        by_cases hdl : env.downloadOk
        · simp only [if_pos hdl] at h
          obtain ⟨h1, _⟩ := Prod.mk.injEq .. ▸ Except.ok.inj h
          exact h1.symm
        · simp [if_neg hdl] at h
      · simp [if_neg hta] at h

theorem get_packages_present (env : Env) (fs : FS) (tr : Trace)
    (h1 : fs.platformTools = true) (h2 : fs.platforms30 = true) :
    get_packages env fs tr = .ok (fs, tr) := by
  simp [get_packages, h1, h2]

theorem get_packages_inv (env : Env) (fs : FS) (tr : Trace) (fs1 : FS)
    (tr1 : Trace) (h : get_packages env fs tr = .ok (fs1, tr1)) :
    fs1.platformTools = true ∧ fs1.platforms30 = true ∧ tr1 = tr
  ∧ fs1.localProps = fs.localProps ∧ fs1.bundleProps = fs.bundleProps
  ∧ fs1.androidKeystore = fs.androidKeystore
  ∧ fs1.bundleKeystore = fs.bundleKeystore
  ∧ fs1.sdkmanager = fs.sdkmanager := by
  by_cases hp : fs.platformTools && fs.platforms30
  · rw [get_packages_present env fs tr (by
        exact (Bool.and_eq_true ..▸ hp).1) (by
        exact (Bool.and_eq_true ..▸ hp).2)] at h
    obtain ⟨h1, h2⟩ := Prod.mk.injEq .. ▸ Except.ok.inj h
    subst h1; subst h2
    exact ⟨(Bool.and_eq_true ..▸ hp).1, (Bool.and_eq_true ..▸ hp).2,
      rfl, rfl, rfl, rfl, rfl, rfl⟩
  · simp only [get_packages, if_neg hp] at h
    by_cases h5 : env.sdkUpdateOk
    · simp only [if_pos h5] at h
      by_cases h6 : env.sdkLicensesOk
      · simp only [if_pos h6] at h
        by_cases h7 : env.sdkInstallOk
        · simp only [if_pos h7] at h
          obtain ⟨h1, h2⟩ := Prod.mk.injEq .. ▸ Except.ok.inj h
          subst h1; subst h2
          exact ⟨rfl, rfl, rfl, rfl, rfl, rfl, rfl, rfl⟩
        · simp [if_neg h7] at h
      · simp [if_neg h6] at h
    · simp [if_neg h5] at h

theorem seedProps_isSome (fs : Option (List Line)) (path : Line) :
    ∃ ls, seedProps fs path = some ls :=
  set_property_isSome _ kStore path false

theorem seedProps_hasKey (fs : Option (List Line)) (path : Line)
    (ls : List Line) (h : seedProps fs path = some ls) :
    hasKey kAlias ls ∧ hasKey kStorePass ls ∧ hasKey kAliasPass ls
  ∧ hasKey kStore ls := by
  obtain ⟨l1, e1⟩ := set_property_isSome fs kAlias vAndroid false
  obtain ⟨l2, e2⟩ := set_property_isSome (some l1) kStorePass vAndroid false
  obtain ⟨l3, e3⟩ := set_property_isSome (some l2) kAliasPass vAndroid false
  rw [seedProps, e1, e2, e3] at h
  have hA1 : hasKey kAlias l1 := hasKey_set_property fs kAlias vAndroid
    false WF_kAlias l1 e1
  have hA2 : hasKey kAlias l2 := hasKey_set_property_other (some l1) kAlias
    kStorePass vAndroid false (by decide) l2 hA1 e2
  have hA3 : hasKey kAlias l3 := hasKey_set_property_other (some l2) kAlias
    kAliasPass vAndroid false (by decide) l3 hA2 e3
  have hA4 : hasKey kAlias ls := hasKey_set_property_other (some l3) kAlias
    kStore path false (by decide) ls hA3 h
  have hB2 : hasKey kStorePass l2 := hasKey_set_property (some l1)
    kStorePass vAndroid false WF_kStorePass l2 e2
  have hB3 : hasKey kStorePass l3 := hasKey_set_property_other (some l2)
    kStorePass kAliasPass vAndroid false (by decide) l3 hB2 e3
  have hB4 : hasKey kStorePass ls := hasKey_set_property_other (some l3)
    kStorePass kStore path false (by decide) ls hB3 h
  have hC3 : hasKey kAliasPass l3 := hasKey_set_property (some l2)
    kAliasPass vAndroid false WF_kAliasPass l3 e3
  have hC4 : hasKey kAliasPass ls := hasKey_set_property_other (some l3)
    kAliasPass kStore path false (by decide) ls hC3 h
  have hD4 : hasKey kStore ls := hasKey_set_property (some l3) kStore path
    false WF_kStore ls h
  exact ⟨hA4, hB4, hC4, hD4⟩

theorem seedProps_noop (ls : List Line) (path : Line)
    (h1 : hasKey kAlias ls) (h2 : hasKey kStorePass ls)
    (h3 : hasKey kAliasPass ls) (h4 : hasKey kStore ls) :
    seedProps (some ls) path = some ls := by
  rw [seedProps, set_property_noop ls kAlias vAndroid h1,
    set_property_noop ls kStorePass vAndroid h2,
    set_property_noop ls kAliasPass vAndroid h3,
    set_property_noop ls kStore path h4]

/-- All keys the seeds and the final sdk.dir write use, transferred
across the replace write of sdk.dir: the four seeded keys are still
present and the stored keystore path is unchanged. -/
theorem seeded_after_sdkdir (ls L : List Line)
    (hrep : set_property (some ls) kSdkDir sdkDirValue true = some L)
    (h1 : hasKey kAlias ls) (h2 : hasKey kStorePass ls)
    (h3 : hasKey kAliasPass ls) (h4 : hasKey kStore ls) :
    hasKey kAlias L ∧ hasKey kStorePass L ∧ hasKey kAliasPass L
  ∧ hasKey kStore L ∧ getLines kStore L = getLines kStore ls := by
  refine ⟨hasKey_set_property_other (some ls) kAlias kSdkDir sdkDirValue
      true (by decide) L h1 hrep,
    hasKey_set_property_other (some ls) kStorePass kSdkDir sdkDirValue
      true (by decide) L h2 hrep,
    hasKey_set_property_other (some ls) kAliasPass kSdkDir sdkDirValue
      true (by decide) L h3 hrep,
    hasKey_set_property_other (some ls) kStore kSdkDir sdkDirValue
      true (by decide) L h4 hrep,
    getLines_set_property_other (some ls) kStore kSdkDir sdkDirValue
      true (by decide) WF_kSdkDir L hrep⟩

set_option maxHeartbeats 2000000 in
theorem generate_keys_inv (env : Env) (fs : FS) (tr : Trace) (fs1 : FS)
    (tr1 : Trace) (h : generate_keys env fs tr = .ok (fs1, tr1)) :
    ∃ ls, seedProps fs.localProps defaultKeystore = some ls
  ∧ fs1.localProps = some ls
  ∧ fs1.bundleProps = fs.bundleProps
  ∧ fs1.bundleKeystore = fs.bundleKeystore
  ∧ fs1.sdkmanager = fs.sdkmanager
  ∧ fs1.platformTools = fs.platformTools
  ∧ fs1.platforms30 = fs.platforms30
  ∧ (fs1.androidKeystore = true
     ∨ (fs1.androidKeystore = false
        ∧ (getLines kStore ls ≠ some defaultKeystore
           ∨ env.yesnoCreateKey = false ∨ env.yesnoBackup = false))) := by
  obtain ⟨ls, hls⟩ := seedProps_isSome fs.localProps defaultKeystore
  refine ⟨ls, hls, ?_⟩
  simp only [generate_keys, hls, get_property] at h
  by_cases hg : getLines kStore ls = some defaultKeystore
  · simp only [if_pos hg] at h
    by_cases ha : fs.androidKeystore = true
    · simp only [ha, if_pos rfl] at h
      obtain ⟨h1, h2⟩ := Prod.mk.injEq .. ▸ Except.ok.inj h
      subst h1
      exact ⟨rfl, rfl, rfl, rfl, rfl, rfl, Or.inl rfl⟩
    · have ha2 : fs.androidKeystore = false := by
        cases hb : fs.androidKeystore
        · rfl
        · exact absurd hb ha
      simp only [ha2] at h
      by_cases hck : env.yesnoCreateKey = true
      · simp only [hck, if_pos rfl] at h
        by_cases hyb : env.yesnoBackup = true
        · simp only [hyb, if_pos rfl] at h
          by_cases hkt : env.keytoolOk = true
          · simp only [hkt, if_pos rfl] at h
            obtain ⟨h1, h2⟩ := Prod.mk.injEq .. ▸ Except.ok.inj h
            subst h1
            exact ⟨rfl, rfl, rfl, rfl, rfl, rfl, Or.inl rfl⟩
          · simp [hkt] at h
        · have hyb2 : env.yesnoBackup = false := by
            cases hb : env.yesnoBackup
            · rfl
            · exact absurd hb hyb
          simp only [hyb2] at h
          simp only [Bool.false_eq_true, if_false] at h
          obtain ⟨h1, h2⟩ := Prod.mk.injEq .. ▸ Except.ok.inj h
          subst h1
          exact ⟨rfl, rfl, rfl, rfl, rfl, rfl,
            Or.inr ⟨rfl, Or.inr (Or.inr hyb2)⟩⟩
      · have hck2 : env.yesnoCreateKey = false := by
          cases hb : env.yesnoCreateKey
          · rfl
          · exact absurd hb hck
        simp only [hck2, Bool.false_eq_true, if_false] at h
        obtain ⟨h1, h2⟩ := Prod.mk.injEq .. ▸ Except.ok.inj h
        subst h1
        exact ⟨rfl, rfl, rfl, rfl, rfl, rfl,
          Or.inr ⟨rfl, Or.inr (Or.inl hck2)⟩⟩
  · simp only [if_neg hg] at h
    obtain ⟨h1, h2⟩ := Prod.mk.injEq .. ▸ Except.ok.inj h
    subst h1
    cases hfa : fs.androidKeystore
    · exact ⟨rfl, rfl, rfl, rfl, rfl, rfl, Or.inr ⟨rfl, Or.inl hg⟩⟩
    · exact ⟨rfl, rfl, rfl, rfl, rfl, rfl, Or.inl rfl⟩

set_option maxHeartbeats 2000000 in
theorem generate_keys_again (env : Env) (fs fs1 fs2 : FS)
    (tr tr1 tr2 : Trace)
    (h : generate_keys env fs tr = .ok (fs1, tr1))
    (hlp : fs2.localProps
      = set_property fs1.localProps kSdkDir sdkDirValue true)
    (hks : fs2.androidKeystore = fs1.androidKeystore) :
    generate_keys env fs2 tr2 = .ok (fs2, tr2) := by
  obtain ⟨ls, hls, hlp1, _, _, _, _, _, hdisj⟩ :=
    generate_keys_inv env fs tr fs1 tr1 h
  rw [hlp1] at hlp
  obtain ⟨hsk1, hsk2, hsk3, hsk4⟩ :=
    seedProps_hasKey fs.localProps defaultKeystore ls hls
  obtain ⟨L, hL⟩ := set_property_isSome (some ls) kSdkDir sdkDirValue true
  rw [hL] at hlp
  obtain ⟨hA, hB, hC, hD, hget⟩ :=
    seeded_after_sdkdir ls L hL hsk1 hsk2 hsk3 hsk4
  have hseed2 : seedProps fs2.localProps defaultKeystore = some L := by
    rw [hlp]
    exact seedProps_noop L defaultKeystore hA hB hC hD
  have heta : ({ fs2 with localProps := some L } : FS) = fs2 :=
    FS_update_localProps_self fs2 (some L) hlp
  simp only [generate_keys, hseed2, get_property, hget]
  by_cases hg : getLines kStore ls = some defaultKeystore
  · rw [if_pos hg]
    rcases hdisj with htrue | ⟨hfalse, hdecl⟩
    · have h2 : fs2.androidKeystore = true := by rw [hks, htrue]
      rw [if_pos h2, heta]
    · have h2 : fs2.androidKeystore = false := by rw [hks, hfalse]
      have h2n : ¬ (fs2.androidKeystore = true) := by simp [h2]
      rw [if_neg h2n]
      rcases hdecl with hcustom | hck | hyb
      · exact absurd hg hcustom
      · have hckn : ¬ (env.yesnoCreateKey = true) := by simp [hck]
        rw [if_neg hckn, heta]
      · by_cases hck2 : env.yesnoCreateKey = true
        · have hybn : ¬ (env.yesnoBackup = true) := by simp [hyb]
          rw [if_pos hck2, if_neg hybn, heta]
        · rw [if_neg hck2, heta]
  · rw [if_neg hg, heta]

set_option maxHeartbeats 2000000 in
theorem generate_bundle_keys_inv (env : Env) (fs : FS) (tr : Trace)
    (fs1 : FS) (tr1 : Trace)
    (h : generate_bundle_keys env fs tr = .ok (fs1, tr1)) :
    ∃ ls, seedProps fs.bundleProps bundleKeystorePath = some ls
  ∧ fs1.bundleProps = some ls
  ∧ fs1.localProps = fs.localProps
  ∧ fs1.androidKeystore = fs.androidKeystore
  ∧ fs1.sdkmanager = fs.sdkmanager
  ∧ fs1.platformTools = fs.platformTools
  ∧ fs1.platforms30 = fs.platforms30
  ∧ (fs1.bundleKeystore = true
     ∨ (fs1.bundleKeystore = false
        ∧ getLines kStore ls ≠ some bundleKeystorePath)) := by
  obtain ⟨ls, hls⟩ := seedProps_isSome fs.bundleProps bundleKeystorePath
  refine ⟨ls, hls, ?_⟩
  simp only [generate_bundle_keys, hls, get_property] at h
  by_cases hg : getLines kStore ls = some bundleKeystorePath
  · simp only [if_pos hg] at h
    by_cases hb : fs.bundleKeystore = true
    · simp only [hb, if_pos rfl] at h
      obtain ⟨h1, h2⟩ := Prod.mk.injEq .. ▸ Except.ok.inj h
      subst h1
      exact ⟨rfl, rfl, rfl, rfl, rfl, rfl, Or.inl rfl⟩
    · have hb2 : fs.bundleKeystore = false := by
        cases hx : fs.bundleKeystore
        · rfl
        · exact absurd hx hb
      simp only [hb2, Bool.false_eq_true, if_false] at h
      by_cases hkt : env.keytoolOk = true
      · simp only [hkt, if_pos rfl] at h
        obtain ⟨h1, h2⟩ := Prod.mk.injEq .. ▸ Except.ok.inj h
        subst h1
        exact ⟨rfl, rfl, rfl, rfl, rfl, rfl, Or.inl rfl⟩
      · simp [hkt] at h
  · simp only [if_neg hg] at h
    obtain ⟨h1, h2⟩ := Prod.mk.injEq .. ▸ Except.ok.inj h
    subst h1
    cases hfb : fs.bundleKeystore
    · exact ⟨rfl, rfl, rfl, rfl, rfl, rfl, Or.inr ⟨rfl, hg⟩⟩
    · exact ⟨rfl, rfl, rfl, rfl, rfl, rfl, Or.inl rfl⟩

set_option maxHeartbeats 2000000 in
theorem generate_bundle_keys_again (env : Env) (fs fs1 fs2 : FS)
    (tr tr1 tr2 : Trace)
    (h : generate_bundle_keys env fs tr = .ok (fs1, tr1))
    (hbp : fs2.bundleProps
      = set_property fs1.bundleProps kSdkDir sdkDirValue true)
    (hks : fs2.bundleKeystore = fs1.bundleKeystore) :
    generate_bundle_keys env fs2 tr2 = .ok (fs2, tr2) := by
  obtain ⟨ls, hls, hbp1, _, _, _, _, _, hdisj⟩ :=
    generate_bundle_keys_inv env fs tr fs1 tr1 h
  rw [hbp1] at hbp
  obtain ⟨hsk1, hsk2, hsk3, hsk4⟩ :=
    seedProps_hasKey fs.bundleProps bundleKeystorePath ls hls
  obtain ⟨L, hL⟩ := set_property_isSome (some ls) kSdkDir sdkDirValue true
  rw [hL] at hbp
  obtain ⟨hA, hB, hC, hD, hget⟩ :=
    seeded_after_sdkdir ls L hL hsk1 hsk2 hsk3 hsk4
  have hseed2 : seedProps fs2.bundleProps bundleKeystorePath = some L := by
    rw [hbp]
    exact seedProps_noop L bundleKeystorePath hA hB hC hD
  have heta : ({ fs2 with bundleProps := some L } : FS) = fs2 :=
    FS_update_bundleProps_self fs2 (some L) hbp
  simp only [generate_bundle_keys, hseed2, get_property, hget]
  by_cases hg : getLines kStore ls = some bundleKeystorePath
  · rw [if_pos hg]
    rcases hdisj with htrue | ⟨hfalse, hcustom⟩
    · have h2 : fs2.bundleKeystore = true := by rw [hks, htrue]
      rw [if_pos h2, heta]
    · exact absurd hg hcustom
  · rw [if_neg hg, heta]

theorem generate_keys_keystore_skip (env : Env) (fs : FS) (tr : Trace)
    (h : fs.androidKeystore = true) :
    ∃ lp, generate_keys env fs tr = .ok ({ fs with localProps := lp }, tr) := by
  obtain ⟨ls, hls⟩ := seedProps_isSome fs.localProps defaultKeystore
  refine ⟨some ls, ?_⟩
  simp only [generate_keys, hls, get_property]
  by_cases hg : getLines kStore ls = some defaultKeystore
  · rw [if_pos hg, if_pos h]
  · rw [if_neg hg]

theorem generate_bundle_keys_keystore_skip (env : Env) (fs : FS)
    (tr : Trace) (h : fs.bundleKeystore = true) :
    ∃ bp, generate_bundle_keys env fs tr
      = .ok ({ fs with bundleProps := bp }, tr) := by
  obtain ⟨ls, hls⟩ := seedProps_isSome fs.bundleProps bundleKeystorePath
  refine ⟨some ls, ?_⟩
  simp only [generate_bundle_keys, hls, get_property]
  by_cases hg : getLines kStore ls = some bundleKeystorePath
  · rw [if_pos hg, if_pos h]
  · rw [if_neg hg]

/-! Claims about the workflow (C1, C4, C5, C8). -/

/-- C4: when the keystore file already exists at the configured path,
generate_keys and generate_bundle_keys return without invoking keytool,
whatever the prompts would answer: the trace is unchanged (no keytool
call) and the keystore still exists, untouched. -/
theorem C4_key_non_destruction (env : Env) (fs : FS) (tr : Trace)
    (h1 : fs.androidKeystore = true) (h2 : fs.bundleKeystore = true) :
    (∃ fs1, generate_keys env fs tr = .ok (fs1, tr)
      ∧ fs1.androidKeystore = true)
  ∧ (∃ fs2, generate_bundle_keys env fs tr = .ok (fs2, tr)
      ∧ fs2.bundleKeystore = true) := by
  obtain ⟨lp, hlp⟩ := generate_keys_keystore_skip env fs tr h1
  obtain ⟨bp, hbp⟩ := generate_bundle_keys_keystore_skip env fs tr h2
  exact ⟨⟨{ fs with localProps := lp }, hlp, h1⟩,
    ⟨{ fs with bundleProps := bp }, hbp, h2⟩⟩

theorem C4_key_non_destruction_witness :
    (∃ fs1, generate_keys
        ⟨true, true, true, true, true, true, true, true, true, true, true⟩
        { freshFS with androidKeystore := true, bundleKeystore := true }
        ⟨0, 0, 0, 0⟩
      = .ok (fs1, ⟨0, 0, 0, 0⟩) ∧ fs1.androidKeystore = true)
  ∧ (∃ fs2, generate_bundle_keys
        ⟨true, true, true, true, true, true, true, true, true, true, true⟩
        { freshFS with androidKeystore := true, bundleKeystore := true }
        ⟨0, 0, 0, 0⟩
      = .ok (fs2, ⟨0, 0, 0, 0⟩) ∧ fs2.bundleKeystore = true) :=
  C4_key_non_destruction
    ⟨true, true, true, true, true, true, true, true, true, true, true⟩
    { freshFS with androidKeystore := true, bundleKeystore := true }
    ⟨0, 0, 0, 0⟩ rfl rfl

/-- C5: when the sdkmanager executable already exists, unpack_sdk
returns at once with the state and trace unchanged: no terms prompt, no
download, no extraction. -/
theorem C5_short_circuit (env : Env) (fs : FS) (tr : Trace)
    (h : fs.sdkmanager = true) :
    unpack_sdk env fs tr = .ok (fs, tr) :=
  unpack_sdk_skip env fs tr h

theorem C5_short_circuit_witness :
    unpack_sdk
      ⟨true, true, false, false, false, true, true, true, true, true, true⟩
      { freshFS with sdkmanager := true } ⟨0, 0, 0, 0⟩
      = .ok ({ freshFS with sdkmanager := true }, ⟨0, 0, 0, 0⟩) :=
  C5_short_circuit
    ⟨true, true, false, false, false, true, true, true, true, true, true⟩
    { freshFS with sdkmanager := true } ⟨0, 0, 0, 0⟩ rfl

/-- C8: starting from a fresh project, when the user declines either of
the two primary-key confirmation prompts, the run still completes: no
android.keystore is created, local.properties holds exactly the four
seeded default lines, and the orchestrator goes on to append the sdk.dir
property; only the silent bundle key invokes keytool. -/
theorem C8_decline_prompts (env : Env) (tr : Trace)
    (hdecl : env.yesnoCreateKey = false ∨ env.yesnoBackup = false)
    (h1 : env.javacOk = true) (h2 : env.javaOk = true)
    (h3 : env.raptNoTerms = true) (h4 : env.downloadOk = true)
    (h5 : env.sdkUpdateOk = true) (h6 : env.sdkLicensesOk = true)
    (h7 : env.sdkInstallOk = true) (h8 : env.keytoolOk = true) :
    install_sdk env freshFS tr
      = .ok (⟨some (seededLocal ++ [mkLine kSdkDir sdkDirValue]),
              some (seededBundle ++ [mkLine kSdkDir sdkDirValue]),
              false, true, true, true, true⟩,
             ⟨tr.downloads + 1, tr.keytoolCalls + 1, tr.termsPrompts,
              tr.extracts + 1⟩) := by
  obtain ⟨ja, jv, nt, ta, dl, up, lic, ins, yc, yb, kt⟩ := env
  dsimp only at h1 h2 h3 h4 h5 h6 h7 h8 hdecl
  subst h1 h2 h3 h4 h5 h6 h7 h8
  rcases hdecl with hd | hd
  · subst hd
    rfl
  · subst hd
    cases yc <;> rfl

theorem C8_decline_prompts_witness :
    install_sdk
      ⟨true, true, true, true, true, true, true, true, false, false, true⟩
      freshFS ⟨0, 0, 0, 0⟩
      = .ok (⟨some (seededLocal ++ [mkLine kSdkDir sdkDirValue]),
              some (seededBundle ++ [mkLine kSdkDir sdkDirValue]),
              false, true, true, true, true⟩,
             ⟨1, 1, 0, 1⟩) :=
  C8_decline_prompts
    ⟨true, true, true, true, true, true, true, true, false, false, true⟩
    ⟨0, 0, 0, 0⟩ (Or.inl rfl) rfl rfl rfl rfl rfl rfl rfl rfl

/-- C1: a second run of install_sdk against the state a completed first
run left behind returns that state and trace unchanged: the property
files are byte-identical, and the download and keytool counters do not
move, so neither the SDK download nor keytool is invoked during the
second run.  The requests of both runs to the external collaborators
(prompt answers, process outcomes) are those of the same environment. -/
theorem C1_idempotent (env : Env) (fs : FS) (tr : Trace) (fs1 : FS)
    (tr1 : Trace) (h : install_sdk env fs tr = .ok (fs1, tr1)) :
    ∃ fs2 tr2, install_sdk env fs1 tr1 = .ok (fs2, tr2)
  ∧ fs2.localProps = fs1.localProps
  ∧ fs2.bundleProps = fs1.bundleProps
  ∧ tr2.downloads = tr1.downloads
  ∧ tr2.keytoolCalls = tr1.keytoolCalls := by
  cases hcj : check_java env with
  | error e =>
    simp only [install_sdk, hcj] at h
    exact Except.noConfusion h
  | ok u =>
  cases hup : unpack_sdk env fs tr with
  | error e =>
    simp only [install_sdk, hcj, hup] at h
    exact Except.noConfusion h
  | ok pA =>
  obtain ⟨A, trA⟩ := pA
  cases hpk : get_packages env A trA with
  | error e =>
    simp only [install_sdk, hcj, hup, hpk] at h
    exact Except.noConfusion h
  | ok pB =>
  obtain ⟨B, trB⟩ := pB
  cases hgk : generate_keys env B trB with
  | error e =>
    simp only [install_sdk, hcj, hup, hpk, hgk] at h
    exact Except.noConfusion h
  | ok pC =>
  obtain ⟨C, trC⟩ := pC
  cases hgb : generate_bundle_keys env C trC with
  | error e =>
    simp only [install_sdk, hcj, hup, hpk, hgk, hgb] at h
    exact Except.noConfusion h
  | ok pD =>
  obtain ⟨D, trD⟩ := pD
  simp only [install_sdk, hcj, hup, hpk, hgk, hgb] at h
  obtain ⟨hfs1, htr1⟩ := Prod.mk.injEq .. ▸ Except.ok.inj h
  obtain ⟨hj1, hj2⟩ := check_java_inv env u hcj
  have hAeq : A = { fs with sdkmanager := true } :=
    unpack_sdk_inv env fs tr A trA hup
  obtain ⟨hBpt, hBp30, htrB, hBlp, hBbp, hBaks, hBbks, hBsdk⟩ :=
    get_packages_inv env A trA B trB hpk
  obtain ⟨ls, hls, hClp, hCbp, hCbks, hCsdk, hCpt, hCp30, hCdisj⟩ :=
    generate_keys_inv env B trB C trC hgk
  obtain ⟨ls2, hls2, hDbp, hDlp, hDaks, hDsdk, hDpt, hDp30, hDdisj⟩ :=
    generate_bundle_keys_inv env C trC D trD hgb
  subst hfs1
  subst htr1
  have hsdk1 : D.sdkmanager = true := by
    rw [hDsdk, hCsdk, hBsdk, hAeq]
  have hpt1 : D.platformTools = true := by rw [hDpt, hCpt, hBpt]
  have hp301 : D.platforms30 = true := by rw [hDp30, hCp30, hBp30]
  set lpF := set_property D.localProps kSdkDir sdkDirValue true with hlpF
  set bpF := set_property D.bundleProps kSdkDir sdkDirValue true with hbpF
  set fsF : FS := { D with localProps := lpF, bundleProps := bpF }
    with hfsF
  have hgk2 : generate_keys env fsF trD = .ok (fsF, trD) := by
    refine generate_keys_again env B C fsF trB trC trD hgk ?_ ?_
    · show lpF = set_property C.localProps kSdkDir sdkDirValue true
      rw [hlpF, hDlp]
    · show D.androidKeystore = C.androidKeystore
      exact hDaks
  have hgb2 : generate_bundle_keys env fsF trD = .ok (fsF, trD) := by
    refine generate_bundle_keys_again env C D fsF trC trD trD hgb ?_ ?_
    · show bpF = set_property D.bundleProps kSdkDir sdkDirValue true
      rw [hbpF]
    · show D.bundleKeystore = D.bundleKeystore
      rfl
  have hsetlp : set_property lpF kSdkDir sdkDirValue true = lpF := by
    rw [hlpF, hDlp, hClp, set_property_replace]
    exact set_property_replace_idem ls kSdkDir sdkDirValue WF_kSdkDir
  have hsetbp : set_property bpF kSdkDir sdkDirValue true = bpF := by
    rw [hbpF, hDbp, set_property_replace]
    exact set_property_replace_idem ls2 kSdkDir sdkDirValue WF_kSdkDir
  refine ⟨fsF, trD, ?_, rfl, rfl, rfl, rfl⟩
  simp only [install_sdk, check_java_ok env hj1 hj2,
    unpack_sdk_skip env fsF trD hsdk1,
    get_packages_present env fsF trD hpt1 hp301,
    hgk2, hgb2]
  show (Except.ok
    ({ fsF with
        localProps := set_property fsF.localProps kSdkDir sdkDirValue true,
        bundleProps :=
          set_property fsF.bundleProps kSdkDir sdkDirValue true },
      trD) : Except Err (FS × Trace)) = .ok (fsF, trD)
  have hlp2 : fsF.localProps = lpF := rfl
  have hbp2 : fsF.bundleProps = bpF := rfl
  rw [hlp2, hbp2, hsetlp, hsetbp]

theorem C1_idempotent_witness :
    install_sdk
      ⟨true, true, false, true, true, true, true, true, true, true, true⟩
      freshFS ⟨0, 0, 0, 0⟩
      = .ok (⟨some (seededLocal ++ [mkLine kSdkDir sdkDirValue]),
              some (seededBundle ++ [mkLine kSdkDir sdkDirValue]),
              true, true, true, true, true⟩,
             ⟨1, 2, 1, 1⟩)
  ∧ ∃ fs2 tr2, install_sdk
      ⟨true, true, false, true, true, true, true, true, true, true, true⟩
      (⟨some (seededLocal ++ [mkLine kSdkDir sdkDirValue]),
        some (seededBundle ++ [mkLine kSdkDir sdkDirValue]),
        true, true, true, true, true⟩ : FS) ⟨1, 2, 1, 1⟩
      = .ok (fs2, tr2)
  ∧ fs2.localProps
      = some (seededLocal ++ [mkLine kSdkDir sdkDirValue])
  ∧ fs2.bundleProps
      = some (seededBundle ++ [mkLine kSdkDir sdkDirValue])
  ∧ tr2.downloads = 1
  ∧ tr2.keytoolCalls = 2 :=
  ⟨rfl, C1_idempotent
    ⟨true, true, false, true, true, true, true, true, true, true, true⟩
    freshFS ⟨0, 0, 0, 0⟩
    ⟨some (seededLocal ++ [mkLine kSdkDir sdkDirValue]),
     some (seededBundle ++ [mkLine kSdkDir sdkDirValue]),
     true, true, true, true, true⟩ ⟨1, 2, 1, 1⟩ rfl⟩

end InstallSdk
